import Mathlib

/-!
Verification development for the ZB websocket adapter
(`zb_websocket.go`, package `zb` of gocryptotrader).

Frames, channel names and JSON fragments are modelled as `List Char`
(one `Char` per byte of the Go string).  External collaborators
(`encoding/json` unmarshalling, the transport, `common/crypto` hashes,
`wshandler` plumbing) are modelled as explicit function-valued
environment fields; everything written in the source file itself is
translated directly.
-/

namespace ZB

/-! ## Message repair: `wsFixInvalidJSON`

The Go function matches the regular expression
`("\[|"\{)(.*)(\]"|\}")` with `regexp.MustCompile(...).Find`, i.e.
leftmost-first semantics: the match starts at the leftmost position
where the whole pattern can match, `.*` is greedy and does not cross a
newline.  `greedy t` returns the start index of the last closing pair
(`]"` or `}"`) in `t` whose preceding characters are newline-free —
exactly the end chosen by the greedy `.*`. -/

/-- Whether a closing pair `]"` or `}"` stands at the head of the list. -/
def closeAt : List Char → Bool
  | c1 :: c2 :: _ => decide ((c1 = ']' ∨ c1 = '}') ∧ c2 = '\"')
  | _ => false

def greedy : List Char → Option Nat
  | [] => none
  | c1 :: rest =>
    match (if c1 = '\n' then none else greedy rest) with
    | some p => some (p + 1)
    | none => if closeAt (c1 :: rest) then some 0 else none

/-- A regex match beginning at the head of the list: an opening pair
`"[` or `"{` followed by a greedy newline-free middle and a closing
pair `]"` or `}"`.  Returns the matched span and the remainder. -/
def startMatch : List Char → Option (List Char × List Char)
  | c :: b :: t =>
    if c = '\"' ∧ (b = '[' ∨ b = '{') then
      match greedy t with
      | some p => some (c :: b :: t.take (p + 2), t.drop (p + 2))
      | none => none
    else none
  | _ => none

/-- Leftmost match of the defect pattern: returns the text before the
match, the matched span, and the text after it (the result of
`regexChecker.Find` together with its position). -/
def findMatch : List Char → Option (List Char × List Char × List Char)
  | [] => none
  | c :: rest =>
    match startMatch (c :: rest) with
    | some (m, suf) => some ([], m, suf)
    | none =>
      match findMatch rest with
      | some (pre, m, suf) => some (c :: pre, m, suf)
      | none => none

/-- Go `strings.Replace(s, pat, rep, 1)`: replace the first occurrence
of `pat` in `s` by `rep` (identity when `pat` does not occur). -/
def replaceFirst (pat rep : List Char) : List Char → List Char
  | [] => if pat.isPrefixOf [] then rep ++ ([] : List Char).drop pat.length else []
  | c :: rest =>
    if pat.isPrefixOf (c :: rest) then rep ++ (c :: rest).drop pat.length
    else c :: replaceFirst pat rep rest

/-- Embedding of `wsFixInvalidJSON` (src/unnamed/part_001:232-244):
find the first span matching the quote-wrapping defect, delete the
first quotation character of the span and its last character, and
substitute the result for the first occurrence of the span. -/
def wsFixInvalidJSON (s : List Char) : List Char :=
  match findMatch s with
  | none => s
  | some (_, matchingResults, _) =>
    let capturedInvalidZBJSON := replaceFirst ['\"'] [] matchingResults
    let fixedJSON := capturedInvalidZBJSON.dropLast
    replaceFirst matchingResults fixedJSON s

/-- The defect pattern can match at the head of `u`. -/
def StartsDefect (u : List Char) : Prop :=
  ∃ b mid c rest, u = '\"' :: b :: (mid ++ c :: '\"' :: rest) ∧
    (b = '[' ∨ b = '{') ∧ (c = ']' ∨ c = '}') ∧ '\n' ∉ mid

/-- The defect pattern occurs somewhere in `s`: a string-wrapped array
or object `"[`…`]"` / `"{`…`}"` with no newline inside. -/
def MatchesDefect (s : List Char) : Prop :=
  ∃ pre b mid c rest, s = pre ++ ('\"' :: b :: (mid ++ c :: '\"' :: rest)) ∧
    (b = '[' ∨ b = '{') ∧ (c = ']' ∨ c = '}') ∧ '\n' ∉ mid

/-! ## Currency pairs and default subscriptions -/

/-- `currency.Pair`: base and quote currency codes plus a delimiter. -/
structure CurrencyPair where
  delimiter : List Char
  base : List Char
  quote : List Char
deriving DecidableEq

/-- `Pair.String()`: base, delimiter and quote concatenated. -/
def pairString (p : CurrencyPair) : List Char := p.base ++ p.delimiter ++ p.quote

/-- `Pair.Lower()`: base and quote lower-cased (the delimiter is
punctuation and is unchanged). -/
def CurrencyPair.lower (p : CurrencyPair) : CurrencyPair :=
  { delimiter := p.delimiter, base := p.base.map Char.toLower, quote := p.quote.map Char.toLower }

/-- Go zero value of `currency.Pair` (the `Currency` field of the
market-wide subscription is never assigned). -/
def emptyPair : CurrencyPair := { delimiter := [], base := [], quote := [] }

/-- `wshandler.WebsocketChannelSubscription` (the only two fields this
adapter assigns). -/
structure WebsocketChannelSubscription where
  channel : List Char
  currency : CurrencyPair
deriving DecidableEq

/-- The three per-instrument format strings `"%s_ticker"`, `"%s_depth"`,
`"%s_trades"`; `fmt.Sprintf` of such a format appends the suffix to the
instrument string. -/
def subTopics : List (List Char) := ["_ticker".data, "_depth".data, "_trades".data]

/-- Modelled from the spec: `wshandler.Websocket.SubscribeToChannels`
(not part of the sources under scrutiny) records the subscription set;
per the spec, "Duplicate (channel, instrument) pairs are suppressed",
so it keeps the first occurrence of each subscription. -/
def subscribeToChannels (subs : List WebsocketChannelSubscription) :
    List WebsocketChannelSubscription :=
  subs.foldl (fun acc s => if s ∈ acc then acc else acc ++ [s]) []

/-- Embedding of `GenerateDefaultSubscriptions`
(src/unnamed/part_001:191-209).  The Go loop erases each enabled pair's
delimiter, then for every format string and every pair appends one
subscription built from the lower-cased pair; the mutation of
`enabledCurrencies[j].Delimiter` before first use is modelled by
erasing all delimiters up front. -/
def GenerateDefaultSubscriptions (enabledPairs : List CurrencyPair) :
    List WebsocketChannelSubscription :=
  let market : WebsocketChannelSubscription := { channel := "markets".data, currency := emptyPair }
  let enabledCurrencies := enabledPairs.map (fun p => { p with delimiter := ([] : List Char) })
  let subscriptions := market :: subTopics.flatMap (fun suffix =>
    enabledCurrencies.map (fun p =>
      { channel := pairString p.lower ++ suffix, currency := p.lower }))
  subscribeToChannels subscriptions

/-! ## Wire payload types

`json.Unmarshal` is an external collaborator: decoding raw bytes into
the typed structures below is supplied through environment fields.  The
structures themselves carry exactly the fields the source reads.
Numeric wire values (`float64` in Go) are modelled as `Rat`; the source
performs no arithmetic on them. -/

/-- The `Generic` inbound envelope: correlation id `No`, status `Code`,
`Channel`, venue `Message` and the raw `Data` payload. -/
structure Generic where
  no : Int
  code : Int
  channel : List Char
  message : List Char
  data : List Char

/-- Ticker payload fields read by the handler. -/
structure WsTickerData where
  last : Rat
  buy : Rat
  sell : Rat
  high : Rat
  low : Rat
  volume24Hr : Rat
deriving DecidableEq

/-- `WsTicker`: epoch-millisecond date plus ticker data. -/
structure WsTicker where
  date : Int
  data : WsTickerData
deriving DecidableEq

/-- A dynamically typed JSON value as produced by `json.Unmarshal` into
`interface\x7b\x7d`; only the dynamic type tag matters to the handler, so
nested structure is elided. -/
inductive JValue
  | jnull
  | jbool (b : Bool)
  | jnum (q : Rat)
  | jstr (s : List Char)
  | jarr
  | jobj
deriving DecidableEq

/-- `WsDepth`: bid and ask rows, each row a loosely typed array. -/
structure WsDepth where
  asks : List (List JValue)
  bids : List (List JValue)
deriving DecidableEq

/-- One element of `WsTrades.Data`. -/
structure WsTradeItem where
  date : Int
  price : Rat
  amount : Rat
  tradeType : List Char
deriving DecidableEq

/-- `WsTrades`: a batch of trade prints. -/
structure WsTrades where
  data : List WsTradeItem
deriving DecidableEq

/-- `orderbook.Item`. -/
structure OrderbookItem where
  amount : Rat
  price : Rat
deriving DecidableEq

/-- The fields of `orderbook.Base` assigned by the depth handler. -/
structure OrderbookBase where
  asks : List OrderbookItem
  bids : List OrderbookItem
  pair : CurrencyPair
  exchangeName : List Char
deriving DecidableEq

/-- The unchecked Go type assertion `v.(float64)`: succeeds only when
the dynamic value is a number, otherwise the goroutine panics (`none`). -/
def assertFloat : JValue → Option Rat
  | .jnum q => some q
  | _ => none

/-- One iteration of the ask/bid conversion loop body:
`orderbook.Item\x7bAmount: row[1].(float64), Price: row[0].(float64)\x7d`.
`none` models a runtime panic (index out of range or failed type
assertion). -/
def itemOfRow (row : List JValue) : Option OrderbookItem :=
  match row[1]? with
  | none => none
  | some v1 =>
    match assertFloat v1 with
    | none => none
    | some amount =>
      match row[0]? with
      | none => none
      | some v0 =>
        match assertFloat v0 with
        | none => none
        | some price => some { amount := amount, price := price }

/-- The whole conversion loop over the rows of one side; `none` when
any row panics. -/
def itemsOfRows : List (List JValue) → Option (List OrderbookItem)
  | [] => some []
  | row :: rest =>
    match itemOfRow row with
    | none => none
    | some it =>
      match itemsOfRows rest with
      | none => none
      | some its => some (it :: its)

/-- `strings.Contains(s, substr)` (first argument is the substring
searched for, second the string searched in). -/
def containsSubstr (pat : List Char) : List Char → Bool
  | [] => pat.isPrefixOf []
  | c :: rest => pat.isPrefixOf (c :: rest) || containsSubstr pat rest

/-- `strings.Split(s, "_")`. -/
def splitUnderscore : List Char → List (List Char)
  | [] => [[]]
  | c :: rest =>
    let r := splitUnderscore rest
    if c = '_' then [] :: r
    else (c :: r.headD []) :: r.tail

/-! ## The reader loop `WsHandleData` -/

/-- `ticker.Price` as assembled by the ticker branch (timestamp in
nanoseconds: `time.Unix(0, date*int64(time.Millisecond))`). -/
structure TickerPrice where
  exchangeName : List Char
  close : Rat
  volume : Rat
  high : Rat
  low : Rat
  last : Rat
  bid : Rat
  ask : Rat
  lastUpdatedNs : Int
  pair : CurrencyPair
deriving DecidableEq

/-- `wshandler.WebsocketOrderbookUpdate`. -/
structure OrderbookUpdateEvent where
  pair : CurrencyPair
  exchange : List Char
deriving DecidableEq

/-- `wshandler.TradeData` as assembled by the trades branch (timestamp
in seconds: `time.Unix(t.Date, 0)`). -/
structure TradeData where
  timestampSec : Int
  currencyPair : CurrencyPair
  exchange : List Char
  price : Rat
  amount : Rat
  side : List Char
deriving DecidableEq

/-- The kinds of error values the loop pushes to `DataHandler`. -/
inductive ErrKind
  | unmarshalFailure
  | protocolError (code : Int) (message : List Char)
  | snapshotFailure (e : List Char)
  | unhandledChannel
deriving DecidableEq

/-- One observable action of a loop iteration, tagged by the channel it
is sent on (`ReadMessageErrors`, `TrafficAlert`, `DataHandler`, or the
pending-request table via `AddResponseWithID`). -/
inductive Emission
  | readMessageError (e : List Char)
  | trafficAlert
  | dataError (k : ErrKind)
  | dataTicker (p : TickerPrice)
  | dataOrderbook (u : OrderbookUpdateEvent)
  | dataTrade (t : TradeData)
  | pendingResponse (no : Int) (payload : List Char)
deriving DecidableEq

/-- Result of one loop iteration: continue with the next frame, return
from the goroutine, or die from an unrecovered panic. -/
inductive StepResult
  | cont (ems : List Emission)
  | term (ems : List Emission)
  | panicked (ems : List Emission)
deriving DecidableEq

/-- The emissions of a step, regardless of how it ended. -/
def StepResult.emissions : StepResult → List Emission
  | .cont ems => ems
  | .term ems => ems
  | .panicked ems => ems

/-- One outcome of the `select`/`ReadMessage` at the top of the loop. -/
inductive LoopInput
  | shutdown
  | readFail (e : List Char)
  | frame (raw : List Char)

/-- External collaborators of the reader loop: the `json.Unmarshal`
instances for each payload type, `currency.NewPairFromString`, and
`wshandler`'s `Orderbook.LoadSnapshot` (`some e` = error `e`). -/
structure LoopEnv where
  name : List Char
  generic : List Char → Option Generic
  marketsD : List Char → Option Unit
  tickerD : List Char → Option WsTicker
  depthD : List Char → Option WsDepth
  tradesD : List Char → Option WsTrades
  newPairFromString : List Char → CurrencyPair
  loadSnapshot : OrderbookBase → Option (List Char)

/-- Embedding of one iteration of `WsHandleData`
(src/unnamed/part_001:55-186): shutdown and read failure return; a
successfully read frame raises `TrafficAlert`, is repaired, decoded
into `Generic`, and classified — correlated reply (`No > 0`), protocol
error (`Code > 0 && Code != 1000`), then channel dispatch by substring
in source order, with the unhandled default emitting an error. -/
def step (env : LoopEnv) : LoopInput → StepResult
  | .shutdown => .term []
  | .readFail e => .term [.readMessageError e]
  | .frame raw =>
    let fixedJSON := wsFixInvalidJSON raw
    match env.generic fixedJSON with
    | none => .cont [.trafficAlert, .dataError .unmarshalFailure]
    | some result =>
      if 0 < result.no then
        .cont [.trafficAlert, .pendingResponse result.no fixedJSON]
      else if 0 < result.code ∧ result.code ≠ 1000 then
        .cont [.trafficAlert, .dataError (.protocolError result.code result.message)]
      else if containsSubstr ("markets".data) result.channel then
        match env.marketsD result.data with
        | none => .cont [.trafficAlert, .dataError .unmarshalFailure]
        | some _ => .cont [.trafficAlert]
      else if containsSubstr ("ticker".data) result.channel then
        let cPair := (splitUnderscore result.channel).headD []
        match env.tickerD fixedJSON with
        | none => .cont [.trafficAlert, .dataError .unmarshalFailure]
        | some wsTicker =>
          .cont [.trafficAlert, .dataTicker {
            exchangeName := env.name
            close := wsTicker.data.last
            volume := wsTicker.data.volume24Hr
            high := wsTicker.data.high
            low := wsTicker.data.low
            last := wsTicker.data.last
            bid := wsTicker.data.buy
            ask := wsTicker.data.sell
            lastUpdatedNs := wsTicker.date * 1000000
            pair := env.newPairFromString cPair }]
      else if containsSubstr ("depth".data) result.channel then
        match env.depthD fixedJSON with
        | none => .cont [.trafficAlert, .dataError .unmarshalFailure]
        | some depth =>
          match itemsOfRows depth.asks with
          | none => .panicked [.trafficAlert]
          | some asks =>
            match itemsOfRows depth.bids with
            | none => .panicked [.trafficAlert]
            | some bids =>
              let cPair := env.newPairFromString ((splitUnderscore result.channel).headD [])
              let newOrderBook : OrderbookBase :=
                { asks := asks, bids := bids, pair := cPair, exchangeName := env.name }
              match env.loadSnapshot newOrderBook with
              | some e => .cont [.trafficAlert, .dataError (.snapshotFailure e)]
              | none => .cont [.trafficAlert,
                  .dataOrderbook { pair := cPair, exchange := env.name }]
      else if containsSubstr ("trades".data) result.channel then
        match env.tradesD fixedJSON with
        | none => .cont [.trafficAlert, .dataError .unmarshalFailure]
        | some trades =>
          match trades.data.getLast? with
          | none => .cont [.trafficAlert]
          | some t =>
            .cont [.trafficAlert, .dataTrade {
              timestampSec := t.date
              currencyPair := env.newPairFromString ((splitUnderscore result.channel).headD [])
              exchange := env.name
              price := t.price
              amount := t.amount
              side := t.tradeType }]
      else .cont [.trafficAlert, .dataError .unhandledChannel]

/-- Why the loop stopped consuming its (finite) input trace. -/
inductive LoopExit
  | exhausted
  | returned
  | panicked
deriving DecidableEq

/-- The reader loop run over a finite trace of read outcomes,
collecting all emissions in order. -/
def runLoop (env : LoopEnv) : List LoopInput → List Emission × LoopExit
  | [] => ([], .exhausted)
  | inp :: rest =>
    match step env inp with
    | .cont ems =>
      let r := runLoop env rest
      (ems ++ r.1, r.2)
    | .term ems => (ems, .returned)
    | .panicked ems => (ems, .panicked)

/-! ## Request signing and the authenticated operations -/

/-- `WsAuthenticatedRequest` (fields assigned by the source). -/
structure WsAuthenticatedRequest where
  channel : List Char
  event : List Char
  accesskey : List Char
  no : Int
  sign : List Char
deriving DecidableEq

/-- `WsAddSubUserRequest`. -/
structure WsAddSubUserRequest where
  memo : List Char
  password : List Char
  subUserName : List Char
  channel : List Char
  event : List Char
  accesskey : List Char
  no : Int
  sign : List Char
deriving DecidableEq

/-- `WsDoTransferFundsRequest`. -/
structure WsDoTransferFundsRequest where
  amount : Rat
  currency : List Char
  fromUserName : List Char
  toUserName : List Char
  no : Int
  channel : List Char
  event : List Char
  accesskey : List Char
  sign : List Char
deriving DecidableEq

/-- `WsCreateSubUserKeyRequest`. -/
structure WsCreateSubUserKeyRequest where
  assetPerm : Bool
  entrustPerm : Bool
  keyName : List Char
  leverPerm : Bool
  moneyPerm : Bool
  no : Int
  toUserID : List Char
  channel : List Char
  event : List Char
  accesskey : List Char
  sign : List Char
deriving DecidableEq

/-- `WsSubmitOrderRequest`. -/
structure WsSubmitOrderRequest where
  amount : Rat
  price : Rat
  tradeType : Int
  no : Int
  channel : List Char
  event : List Char
  accesskey : List Char
  sign : List Char
deriving DecidableEq

/-- `WsCancelOrderRequest`. -/
structure WsCancelOrderRequest where
  id : Int
  no : Int
  channel : List Char
  event : List Char
  accesskey : List Char
  sign : List Char
deriving DecidableEq

/-- `WsGetOrderRequest`. -/
structure WsGetOrderRequest where
  id : Int
  no : Int
  channel : List Char
  event : List Char
  accesskey : List Char
  sign : List Char
deriving DecidableEq

/-- `WsGetOrdersRequest`. -/
structure WsGetOrdersRequest where
  pageIndex : Int
  tradeType : Int
  no : Int
  channel : List Char
  event : List Char
  accesskey : List Char
  sign : List Char
deriving DecidableEq

/-- `WsGetOrdersIgnoreTradeTypeRequest`. -/
structure WsGetOrdersIgnoreTradeTypeRequest where
  pageIndex : Int
  pageSize : Int
  no : Int
  channel : List Char
  event : List Char
  accesskey : List Char
  sign : List Char
deriving DecidableEq

/-- The outbound command passed to `json.Marshal` /
`SendMessageReturnResponse`: one constructor per request type. -/
inductive CmdContent
  | authenticatedCmd (r : WsAuthenticatedRequest)
  | addSubUserCmd (r : WsAddSubUserRequest)
  | doTransferFundsCmd (r : WsDoTransferFundsRequest)
  | createSubUserKeyCmd (r : WsCreateSubUserKeyRequest)
  | submitOrderCmd (r : WsSubmitOrderRequest)
  | cancelOrderCmd (r : WsCancelOrderRequest)
  | getOrderCmd (r : WsGetOrderRequest)
  | getOrdersCmd (r : WsGetOrdersRequest)
  | getOrdersIgnoreTradeTypeCmd (r : WsGetOrdersIgnoreTradeTypeRequest)
deriving DecidableEq

/-- The constant `zWebsocketAddChannel = "addChannel"`. -/
def zWebsocketAddChannel : List Char := "addChannel".data

/-- Lowercase hex digit of a value below 16. -/
def hexDigit (n : Nat) : Char :=
  if n < 10 then Char.ofNat (48 + n) else Char.ofNat (87 + n)

/-- `fmt.Sprintf("%x", bytes)`: two lowercase hex digits per byte. -/
def hexOfBytes (bs : List Nat) : List Char :=
  bs.flatMap (fun b => [hexDigit (b / 16 % 16), hexDigit (b % 16)])

/-- External collaborators of `wsGenerateSignature`: `json.Marshal` and
the `common/crypto` hash functions, modelled as opaque deterministic
functions over byte lists. -/
structure SigEnv where
  marshal : CmdContent → Option (List Nat)
  hmacMD5 : List Nat → List Nat → List Nat
  sha1ToHex : List Nat → List Char

/-- Embedding of `wsGenerateSignature` (src/unnamed/part_001:220-230):
marshal the request (returning `""` after logging when marshalling
fails), HMAC-MD5 it with key `[]byte(Sha1ToHex(secret))`, and
hex-encode the digest. -/
def wsGenerateSignature (e : SigEnv) (secret : List Char) (request : CmdContent) : List Char :=
  match e.marshal request with
  | none => []
  | some jsonResponse =>
    hexOfBytes (e.hmacMD5 jsonResponse ((e.sha1ToHex (secret.map Char.toNat)).map Char.toNat))

/-- Error outcomes of the authenticated websocket operations. -/
inductive ZBError
  | notAuthEnabled (name : List Char)
  | sendFailed (e : List Char)
  | unmarshalFailed
  | requestFailed (code : Int) (message : List Char)
deriving DecidableEq

/-- The common shape of the reply structures
(`WsGetSubUserListResponse`, `WsRequestResponse`, …): the `Code` and
`Message` fields are the only reply fields the source inspects, so the
op-specific payload fields are not carried. -/
structure WsResponse where
  code : Int
  message : List Char
deriving DecidableEq

/-- Side effects of an authenticated operation, in program order:
`GenerateMessageID(true)`, signature computation, and the network write
of `SendMessageReturnResponse`. -/
inductive Effect
  | generatedMessageID
  | signed
  | sentMessage (no : Int)
deriving DecidableEq

/-- Environment of the authenticated operations: credentials and the
enabled-flag from the exchange base, the message-id generator's next
value, the signing collaborators, the transport
(`SendMessageReturnResponse`) and the reply decoders. -/
structure ZBEnv where
  name : List Char
  authEnabled : Bool
  key : List Char
  secret : List Char
  nextID : Int
  sigEnv : SigEnv
  send : Int → CmdContent → Except (List Char) (List Char)
  decodeGeneric : List Char → Option Generic
  decodeResponse : List Char → Option WsResponse

/-- Embedding of `wsAddSubUser` (src/unnamed/part_001:246-278): auth
gate, build and sign the request, send, decode the reply first as
`Generic` for the code check and then as the typed response. -/
def wsAddSubUser (env : ZBEnv) (username password : List Char) :
    Except ZBError WsResponse × List Effect :=
  if !env.authEnabled then (.error (.notAuthEnabled env.name), [])
  else
    let no := env.nextID
    let req0 : WsAddSubUserRequest :=
      { memo := "memo".data, password := password, subUserName := username
        channel := "addSubUser".data, event := zWebsocketAddChannel
        accesskey := env.key, no := no, sign := [] }
    let req := { req0 with sign := wsGenerateSignature env.sigEnv env.secret (.addSubUserCmd req0) }
    let effs := [Effect.generatedMessageID, .signed, .sentMessage no]
    match env.send no (.addSubUserCmd req) with
    | .error e => (.error (.sendFailed e), effs)
    | .ok resp =>
      match env.decodeGeneric resp with
      | none => (.error .unmarshalFailed, effs)
      | some genericResponse =>
        if 0 < genericResponse.code ∧ genericResponse.code ≠ 1000 then
          (.error (.requestFailed genericResponse.code genericResponse.message), effs)
        else
          match env.decodeResponse resp with
          | none => (.error .unmarshalFailed, effs)
          | some response => (.ok response, effs)

/-- Embedding of `wsGetSubUserList` (src/unnamed/part_001:280-304). -/
def wsGetSubUserList (env : ZBEnv) : Except ZBError WsResponse × List Effect :=
  if !env.authEnabled then (.error (.notAuthEnabled env.name), [])
  else
    let no := env.nextID
    let req0 : WsAuthenticatedRequest :=
      { channel := "getSubUserList".data, event := zWebsocketAddChannel
        accesskey := env.key, no := no, sign := [] }
    let req := { req0 with
      sign := wsGenerateSignature env.sigEnv env.secret (.authenticatedCmd req0) }
    let effs := [Effect.generatedMessageID, .signed, .sentMessage no]
    match env.send no (.authenticatedCmd req) with
    | .error e => (.error (.sendFailed e), effs)
    | .ok resp =>
      match env.decodeResponse resp with
      | none => (.error .unmarshalFailed, effs)
      | some response =>
        if 0 < response.code ∧ response.code ≠ 1000 then
          (.error (.requestFailed response.code response.message), effs)
        else (.ok response, effs)

/-- Embedding of `wsDoTransferFunds` (src/unnamed/part_001:306-335). -/
def wsDoTransferFunds (env : ZBEnv) (pair : List Char) (amount : Rat)
    (fromUserName toUserName : List Char) : Except ZBError WsResponse × List Effect :=
  if !env.authEnabled then (.error (.notAuthEnabled env.name), [])
  else
    let no := env.nextID
    let req0 : WsDoTransferFundsRequest :=
      { amount := amount, currency := pair, fromUserName := fromUserName
        toUserName := toUserName, no := no
        channel := "doTransferFunds".data, event := zWebsocketAddChannel
        accesskey := env.key, sign := [] }
    let req := { req0 with
      sign := wsGenerateSignature env.sigEnv env.secret (.doTransferFundsCmd req0) }
    let effs := [Effect.generatedMessageID, .signed, .sentMessage no]
    match env.send no (.doTransferFundsCmd req) with
    | .error e => (.error (.sendFailed e), effs)
    | .ok resp =>
      match env.decodeResponse resp with
      | none => (.error .unmarshalFailed, effs)
      | some response =>
        if 0 < response.code ∧ response.code ≠ 1000 then
          (.error (.requestFailed response.code response.message), effs)
        else (.ok response, effs)

/-- Embedding of `wsCreateSubUserKey` (src/unnamed/part_001:337-368). -/
def wsCreateSubUserKey (env : ZBEnv)
    (assetPerm entrustPerm leverPerm moneyPerm : Bool) (keyName toUserID : List Char) :
    Except ZBError WsResponse × List Effect :=
  if !env.authEnabled then (.error (.notAuthEnabled env.name), [])
  else
    let no := env.nextID
    let req0 : WsCreateSubUserKeyRequest :=
      { assetPerm := assetPerm, entrustPerm := entrustPerm, keyName := keyName
        leverPerm := leverPerm, moneyPerm := moneyPerm, no := no, toUserID := toUserID
        channel := "createSubUserKey".data, event := zWebsocketAddChannel
        accesskey := env.key, sign := [] }
    let req := { req0 with
      sign := wsGenerateSignature env.sigEnv env.secret (.createSubUserKeyCmd req0) }
    let effs := [Effect.generatedMessageID, .signed, .sentMessage no]
    match env.send no (.createSubUserKeyCmd req) with
    | .error e => (.error (.sendFailed e), effs)
    | .ok resp =>
      match env.decodeResponse resp with
      | none => (.error .unmarshalFailed, effs)
      | some response =>
        if 0 < response.code ∧ response.code ≠ 1000 then
          (.error (.requestFailed response.code response.message), effs)
        else (.ok response, effs)

/-- Embedding of `wsSubmitOrder` (src/unnamed/part_001:370-398). -/
def wsSubmitOrder (env : ZBEnv) (pair : CurrencyPair) (amount price : Rat)
    (tradeType : Int) : Except ZBError WsResponse × List Effect :=
  if !env.authEnabled then (.error (.notAuthEnabled env.name), [])
  else
    let no := env.nextID
    let req0 : WsSubmitOrderRequest :=
      { amount := amount, price := price, tradeType := tradeType, no := no
        channel := pairString pair ++ "_order".data, event := zWebsocketAddChannel
        accesskey := env.key, sign := [] }
    let req := { req0 with
      sign := wsGenerateSignature env.sigEnv env.secret (.submitOrderCmd req0) }
    let effs := [Effect.generatedMessageID, .signed, .sentMessage no]
    match env.send no (.submitOrderCmd req) with
    | .error e => (.error (.sendFailed e), effs)
    | .ok resp =>
      match env.decodeResponse resp with
      | none => (.error .unmarshalFailed, effs)
      | some response =>
        if 0 < response.code ∧ response.code ≠ 1000 then
          (.error (.requestFailed response.code response.message), effs)
        else (.ok response, effs)

/-- Embedding of `wsCancelOrder` (src/unnamed/part_001:400-426). -/
def wsCancelOrder (env : ZBEnv) (pair : CurrencyPair) (orderID : Int) :
    Except ZBError WsResponse × List Effect :=
  if !env.authEnabled then (.error (.notAuthEnabled env.name), [])
  else
    let no := env.nextID
    let req0 : WsCancelOrderRequest :=
      { id := orderID, no := no
        channel := pairString pair ++ "_cancelorder".data, event := zWebsocketAddChannel
        accesskey := env.key, sign := [] }
    let req := { req0 with
      sign := wsGenerateSignature env.sigEnv env.secret (.cancelOrderCmd req0) }
    let effs := [Effect.generatedMessageID, .signed, .sentMessage no]
    match env.send no (.cancelOrderCmd req) with
    | .error e => (.error (.sendFailed e), effs)
    | .ok resp =>
      match env.decodeResponse resp with
      | none => (.error .unmarshalFailed, effs)
      | some response =>
        if 0 < response.code ∧ response.code ≠ 1000 then
          (.error (.requestFailed response.code response.message), effs)
        else (.ok response, effs)

/-- Embedding of `wsGetOrder` (src/unnamed/part_001:428-454). -/
def wsGetOrder (env : ZBEnv) (pair : CurrencyPair) (orderID : Int) :
    Except ZBError WsResponse × List Effect :=
  if !env.authEnabled then (.error (.notAuthEnabled env.name), [])
  else
    let no := env.nextID
    let req0 : WsGetOrderRequest :=
      { id := orderID, no := no
        channel := pairString pair ++ "_getorder".data, event := zWebsocketAddChannel
        accesskey := env.key, sign := [] }
    let req := { req0 with
      sign := wsGenerateSignature env.sigEnv env.secret (.getOrderCmd req0) }
    let effs := [Effect.generatedMessageID, .signed, .sentMessage no]
    match env.send no (.getOrderCmd req) with
    | .error e => (.error (.sendFailed e), effs)
    | .ok resp =>
      match env.decodeResponse resp with
      | none => (.error .unmarshalFailed, effs)
      | some response =>
        if 0 < response.code ∧ response.code ≠ 1000 then
          (.error (.requestFailed response.code response.message), effs)
        else (.ok response, effs)

/-- Embedding of `wsGetOrders` (src/unnamed/part_001:456-482). -/
def wsGetOrders (env : ZBEnv) (pair : CurrencyPair) (pageIndex tradeType : Int) :
    Except ZBError WsResponse × List Effect :=
  if !env.authEnabled then (.error (.notAuthEnabled env.name), [])
  else
    let no := env.nextID
    let req0 : WsGetOrdersRequest :=
      { pageIndex := pageIndex, tradeType := tradeType, no := no
        channel := pairString pair ++ "_getorders".data, event := zWebsocketAddChannel
        accesskey := env.key, sign := [] }
    let req := { req0 with
      sign := wsGenerateSignature env.sigEnv env.secret (.getOrdersCmd req0) }
    let effs := [Effect.generatedMessageID, .signed, .sentMessage no]
    match env.send no (.getOrdersCmd req) with
    | .error e => (.error (.sendFailed e), effs)
    | .ok resp =>
      match env.decodeResponse resp with
      | none => (.error .unmarshalFailed, effs)
      | some response =>
        if 0 < response.code ∧ response.code ≠ 1000 then
          (.error (.requestFailed response.code response.message), effs)
        else (.ok response, effs)

/-- Embedding of `wsGetOrdersIgnoreTradeType`
(src/unnamed/part_001:484-511). -/
def wsGetOrdersIgnoreTradeType (env : ZBEnv) (pair : CurrencyPair)
    (pageIndex pageSize : Int) : Except ZBError WsResponse × List Effect :=
  if !env.authEnabled then (.error (.notAuthEnabled env.name), [])
  else
    let no := env.nextID
    let req0 : WsGetOrdersIgnoreTradeTypeRequest :=
      { pageIndex := pageIndex, pageSize := pageSize, no := no
        channel := pairString pair ++ "_getordersignoretradetype".data
        event := zWebsocketAddChannel, accesskey := env.key, sign := [] }
    let req := { req0 with
      sign := wsGenerateSignature env.sigEnv env.secret (.getOrdersIgnoreTradeTypeCmd req0) }
    let effs := [Effect.generatedMessageID, .signed, .sentMessage no]
    match env.send no (.getOrdersIgnoreTradeTypeCmd req) with
    | .error e => (.error (.sendFailed e), effs)
    | .ok resp =>
      match env.decodeResponse resp with
      | none => (.error .unmarshalFailed, effs)
      | some response =>
        if 0 < response.code ∧ response.code ≠ 1000 then
          (.error (.requestFailed response.code response.message), effs)
        else (.ok response, effs)

/-- Embedding of `wsGetAccountInfoRequest` (src/unnamed/part_001:513-538). -/
def wsGetAccountInfoRequest (env : ZBEnv) : Except ZBError WsResponse × List Effect :=
  if !env.authEnabled then (.error (.notAuthEnabled env.name), [])
  else
    let no := env.nextID
    let req0 : WsAuthenticatedRequest :=
      { channel := "getaccountinfo".data, event := zWebsocketAddChannel
        accesskey := env.key, no := no, sign := [] }
    let req := { req0 with
      sign := wsGenerateSignature env.sigEnv env.secret (.authenticatedCmd req0) }
    let effs := [Effect.generatedMessageID, .signed, .sentMessage no]
    match env.send no (.authenticatedCmd req) with
    | .error e => (.error (.sendFailed e), effs)
    | .ok resp =>
      match env.decodeResponse resp with
      | none => (.error .unmarshalFailed, effs)
      | some response =>
        if 0 < response.code ∧ response.code ≠ 1000 then
          (.error (.requestFailed response.code response.message), effs)
        else (.ok response, effs)

/-! ## Concrete fixtures used by the witnesses -/

/-- A reader-loop environment whose `Generic` decoder rejects every
frame (as `json.Unmarshal` does on malformed input). -/
def wEnvUndecodable : LoopEnv :=
  { name := "ZB".data
    generic := fun _ => none
    marketsD := fun _ => none
    tickerD := fun _ => none
    depthD := fun _ => none
    tradesD := fun _ => none
    newPairFromString := fun s => { delimiter := [], base := s, quote := [] }
    loadSnapshot := fun _ => none }

/-- A reader-loop environment decoding every frame to a reply with code
1000 (the venue's success value) on an unhandled channel. -/
def wEnvCode1000 : LoopEnv :=
  { wEnvUndecodable with
    generic := fun _ =>
      some { no := 0, code := 1000, channel := "x".data, message := [], data := [] } }

/-- A reader-loop environment decoding every frame to a correlated
reply (`No = 7`) that also carries a non-success code and a channel. -/
def wEnvCorrelated : LoopEnv :=
  { wEnvUndecodable with
    generic := fun _ =>
      some { no := 7, code := 2007, channel := "btcusd_ticker".data,
             message := "fail".data, data := [] } }

/-- A three-element trade batch as decoded from a trades frame. -/
def wTradeBatch : WsTrades :=
  { data := [ { date := 1, price := 10, amount := 1, tradeType := "buy".data },
              { date := 2, price := 20, amount := 2, tradeType := "sell".data },
              { date := 3, price := 30, amount := 3, tradeType := "buy".data } ] }

/-- A reader-loop environment decoding every frame as a trades frame
carrying `wTradeBatch`. -/
def wEnvTrades : LoopEnv :=
  { wEnvUndecodable with
    generic := fun _ =>
      some { no := 0, code := 0, channel := "btcusd_trades".data, message := [], data := [] }
    tradesD := fun _ => some wTradeBatch }

/-- A reader-loop environment decoding every frame as a depth frame in
which the first ask row carries a string price — exactly what
`json.Unmarshal` produces for the frame
`\x7b"channel":"btcusd_depth","asks":[["0.1",2]]\x7d`. -/
def wEnvBadDepth : LoopEnv :=
  { wEnvUndecodable with
    generic := fun _ =>
      some { no := 0, code := 0, channel := "btcusd_depth".data, message := [], data := [] }
    depthD := fun _ =>
      some { asks := [[.jstr "0.1".data, .jnum 2]], bids := [] } }

/-- Concrete signing collaborators for the witnesses. -/
def wSigEnv : SigEnv :=
  { marshal := fun _ => some [1, 2, 3]
    hmacMD5 := fun m k => m ++ k
    sha1ToHex := fun _ => "ab".data }

/-- Authenticated-operation environment with authenticated API support
disabled. -/
def wZBEnvOff : ZBEnv :=
  { name := "ZB".data, authEnabled := false, key := "k".data, secret := "s".data
    nextID := 1, sigEnv := wSigEnv
    send := fun _ _ => .error "unused".data
    decodeGeneric := fun _ => none
    decodeResponse := fun _ => none }

/-- Authenticated-operation environment with support enabled, a
transport that always answers `"r"`, and reply decoders reporting the
success code 1000. -/
def wZBEnvOn : ZBEnv :=
  { name := "ZB".data, authEnabled := true, key := "k".data, secret := "s".data
    nextID := 1, sigEnv := wSigEnv
    send := fun _ _ => .ok "r".data
    decodeGeneric := fun _ =>
      some { no := 0, code := 1000, channel := [], message := [], data := [] }
    decodeResponse := fun _ => some { code := 1000, message := [] } }

/-- The configured instrument BTC/USD. -/
def btcUsd : CurrencyPair := { delimiter := "/".data, base := "BTC".data, quote := "USD".data }

/-- The configured instrument ETH/USD. -/
def ethUsd : CurrencyPair := { delimiter := "/".data, base := "ETH".data, quote := "USD".data }


/-! ## Lemmas about the repair pass -/

theorem closeAt_sound : ∀ (u : List Char), closeAt u = true →
    ∃ c rest, u = c :: '\"' :: rest ∧ (c = ']' ∨ c = '}') := by
  intro u h
  match u with
  | [] => simp [closeAt] at h
  | [c] => simp [closeAt] at h
  | c1 :: c2 :: r =>
    simp only [closeAt, decide_eq_true_eq] at h
    exact ⟨c1, r, by rw [h.2], h.1⟩

theorem closeAt_complete : ∀ (c : Char) (rest : List Char), (c = ']' ∨ c = '}') →
    closeAt (c :: '\"' :: rest) = true := by
  intro c rest hc
  simp [closeAt, hc]

theorem greedy_sound : ∀ (t : List Char) (p : Nat), greedy t = some p →
    ∃ mid c rest, t = mid ++ c :: '\"' :: rest ∧ mid.length = p ∧
      (c = ']' ∨ c = '}') ∧ '\n' ∉ mid := by
  intro t
  induction t with
  | nil => intro p h; simp [greedy] at h
  | cons c1 rest ih =>
    intro p h
    simp only [greedy] at h
    split at h
    case _ p2 heq =>
      injection h with h2
      subst h2
      split at heq
      · exact absurd heq (by simp)
      case isFalse hnl =>
        rcases ih p2 heq with ⟨mid, c, r2, rfl, hlen, hc, hnlm⟩
        refine ⟨c1 :: mid, c, r2, rfl, by simp [hlen], hc, ?_⟩
        intro hmem
        rcases List.mem_cons.mp hmem with e | hm
        · exact hnl e.symm
        · exact hnlm hm
    case _ heq =>
      split at h
      case isTrue hcl =>
        injection h with h2
        subst h2
        rcases closeAt_sound _ hcl with ⟨c, r2, he, hc⟩
        injection he with he1 he2
        subst he1
        exact ⟨[], c1, r2, by rw [he2]; simp, rfl, hc, by simp⟩
      case isFalse => simp at h

theorem greedy_cons (c1 : Char) (rest : List Char) :
    greedy (c1 :: rest) =
      match (if c1 = '\n' then none else greedy rest) with
      | some p => some (p + 1)
      | none => if closeAt (c1 :: rest) then some 0 else none := by
  simp only [greedy]

theorem greedy_complete : ∀ (mid : List Char) (c : Char) (rest : List Char),
    (c = ']' ∨ c = '}') → '\n' ∉ mid → greedy (mid ++ c :: '\"' :: rest) ≠ none := by
  intro mid
  induction mid with
  | nil =>
    intro c rest hc _
    have hc2 : ¬ c = '\n' := by rcases hc with rfl | rfl <;> decide
    simp only [List.nil_append]
    cases hg : greedy ('\"' :: rest) with
    | some q =>
      rw [greedy_cons c ('\"' :: rest), if_neg hc2, hg]
      simp
    | none =>
      rw [greedy_cons c ('\"' :: rest), if_neg hc2, hg]
      simp [closeAt_complete c rest hc]
  | cons a mid ih =>
    intro c rest hc hnl
    have ha : ¬ a = '\n' := fun h => hnl (by simp [h])
    have hm : '\n' ∉ mid := fun h => hnl (List.mem_cons_of_mem _ h)
    rcases Option.ne_none_iff_exists'.mp (ih c rest hc hm) with ⟨q, hq⟩
    rw [List.cons_append, greedy_cons a (mid ++ c :: '\"' :: rest), if_neg ha, hq]
    simp

theorem takeLenPlus {α : Type} : ∀ (l₁ l₂ : List α) (n : Nat),
    (l₁ ++ l₂).take (l₁.length + n) = l₁ ++ l₂.take n := by
  intro l₁
  induction l₁ with
  | nil => simp
  | cons a l ih => intro l₂ n; simp [Nat.succ_add, ih]

theorem startMatch_sound : ∀ (u m suf : List Char), startMatch u = some (m, suf) →
    u = m ++ suf ∧ ∃ b mid c, m = '\"' :: b :: (mid ++ [c, '\"']) ∧
      (b = '[' ∨ b = '{') ∧ (c = ']' ∨ c = '}') ∧ '\n' ∉ mid := by
  intro u m suf h
  match u with
  | [] => simp [startMatch] at h
  | [c] => simp [startMatch] at h
  | c :: b :: t =>
    simp only [startMatch] at h
    split at h
    case isTrue hcond =>
      split at h
      case _ p hg =>
        simp only [Option.some.injEq, Prod.mk.injEq] at h
        obtain ⟨rfl, rfl⟩ := h
        obtain ⟨rfl, hb⟩ := hcond
        rcases greedy_sound t p hg with ⟨mid, cc, r2, rfl, hlen, hcc, hnl⟩
        refine ⟨by simp [List.take_append_drop], b, mid, cc, ?_, hb, hcc, hnl⟩
        subst hlen
        rw [takeLenPlus mid (cc :: '\"' :: r2) 2]
        simp
      case _ => simp at h
    case isFalse => simp at h

theorem startMatch_of_startsDefect : ∀ (u : List Char), StartsDefect u →
    startMatch u ≠ none := by
  intro u h
  rcases h with ⟨b, mid, c, rest, rfl, hb, hc, hnl⟩
  simp only [startMatch]
  rw [if_pos (And.intro trivial hb)]
  rcases Option.ne_none_iff_exists'.mp (greedy_complete mid c rest hc hnl) with ⟨p, hp⟩
  simp [hp]

theorem findMatch_sound : ∀ (s pre m suf : List Char), findMatch s = some (pre, m, suf) →
    s = pre ++ m ++ suf ∧ startMatch (m ++ suf) = some (m, suf) ∧
      ∀ k, k < pre.length → startMatch (s.drop k) = none := by
  intro s
  induction s with
  | nil => intro pre m suf h; simp [findMatch] at h
  | cons c rest ih =>
    intro pre m suf h
    simp only [findMatch] at h
    split at h
    case _ m0 suf0 heq =>
      simp only [Option.some.injEq, Prod.mk.injEq] at h
      obtain ⟨rfl, rfl, rfl⟩ := h
      have hdec := (startMatch_sound _ _ _ heq).1
      refine ⟨by simpa using hdec, ?_, by simp⟩
      rw [← hdec]; exact heq
    case _ heq =>
      split at h
      case _ pre0 m0 suf0 heq2 =>
        simp only [Option.some.injEq, Prod.mk.injEq] at h
        obtain ⟨rfl, rfl, rfl⟩ := h
        rcases ih _ _ _ heq2 with ⟨hdec, hsm, hlt⟩
        refine ⟨by simp [hdec], hsm, ?_⟩
        intro k hk
        cases k with
        | zero => simpa using heq
        | succ j =>
          simp only [List.drop_succ_cons]
          exact hlt j (by simpa using hk)
      case _ => simp at h

theorem findMatch_cover : ∀ (s : List Char), findMatch s = none →
    ∀ k, startMatch (s.drop k) = none := by
  intro s
  induction s with
  | nil => intro _ k; cases k <;> simp [startMatch]
  | cons c rest ih =>
    intro h k
    simp only [findMatch] at h
    split at h
    · exact absurd h (by simp)
    case _ heq =>
      split at h
      · exact absurd h (by simp)
      case _ heq2 =>
        cases k with
        | zero => exact heq
        | succ j => simp only [List.drop_succ_cons]; exact ih heq2 j

theorem startsDefect_drop_of_matches : ∀ (s : List Char), MatchesDefect s →
    ∃ k, StartsDefect (s.drop k) := by
  intro s h
  rcases h with ⟨pre, b, mid, c, rest, rfl, hb, hc, hnl⟩
  refine ⟨pre.length, ?_⟩
  rw [List.drop_left]
  exact ⟨b, mid, c, rest, rfl, hb, hc, hnl⟩

theorem isPrefixOf_append_self : ∀ (l t : List Char), l.isPrefixOf (l ++ t) = true := by
  intro l t
  induction l with
  | nil => simp [List.isPrefixOf]
  | cons a l ih => simp [List.isPrefixOf, ih]

theorem eq_append_of_isPrefixOf : ∀ (l u : List Char), l.isPrefixOf u = true →
    ∃ t, u = l ++ t := by
  intro l
  induction l with
  | nil => intro u _; exact ⟨u, rfl⟩
  | cons a l ih =>
    intro u h
    cases u with
    | nil => simp [List.isPrefixOf] at h
    | cons b u =>
      simp only [List.isPrefixOf, Bool.and_eq_true, beq_iff_eq] at h
      rcases h with ⟨rfl, h2⟩
      rcases ih u h2 with ⟨t, rfl⟩
      exact ⟨t, rfl⟩

theorem replaceFirst_of_prefixAt (pat rep s : List Char) (h : pat.isPrefixOf s = true) :
    replaceFirst pat rep s = rep ++ s.drop pat.length := by
  cases s <;> simp [replaceFirst, h]

theorem replaceFirst_cons_neg (pat rep : List Char) (c : Char) (rest : List Char)
    (h : pat.isPrefixOf (c :: rest) = false) :
    replaceFirst pat rep (c :: rest) = c :: replaceFirst pat rep rest := by
  simp [replaceFirst, h]

theorem replaceFirst_at : ∀ (pre pat suf rep : List Char),
    (∀ k, k < pre.length → pat.isPrefixOf ((pre ++ (pat ++ suf)).drop k) = false) →
    replaceFirst pat rep (pre ++ (pat ++ suf)) = pre ++ (rep ++ suf) := by
  intro pre
  induction pre with
  | nil =>
    intro pat suf rep _
    simp only [List.nil_append]
    rw [replaceFirst_of_prefixAt _ _ _ (isPrefixOf_append_self pat suf)]
    rw [List.drop_left]
  | cons c pre ih =>
    intro pat suf rep h
    have h0 := h 0 (by simp)
    simp only [List.drop_zero, List.cons_append] at h0
    simp only [List.cons_append]
    rw [replaceFirst_cons_neg _ _ _ _ h0]
    rw [ih pat suf rep ?_]
    intro k hk
    have := h (k + 1) (by simpa using Nat.succ_lt_succ hk)
    simpa using this

theorem startsDefect_of_span_isPrefixOf (u : List Char) (b : Char) (mid : List Char) (c : Char)
    (hb : b = '[' ∨ b = '{') (hc : c = ']' ∨ c = '}') (hnl : '\n' ∉ mid)
    (h : ('\"' :: b :: (mid ++ [c, '\"'])).isPrefixOf u = true) : StartsDefect u := by
  rcases eq_append_of_isPrefixOf _ _ h with ⟨t, rfl⟩
  exact ⟨b, mid, c, t, by simp, hb, hc, hnl⟩

theorem not_matchesDefect_of_findMatch_none (s : List Char) (h : findMatch s = none) :
    ¬ MatchesDefect s := by
  intro hm
  rcases startsDefect_drop_of_matches s hm with ⟨k, hsd⟩
  exact startMatch_of_startsDefect _ hsd (findMatch_cover s h k)

/-- Claim C3: for every input frame in which the quote-wrapping defect
pattern does not occur, the repair function `wsFixInvalidJSON` returns
its input unchanged — repair is the identity on non-matching frames. -/
theorem wsFixInvalidJSON_id_of_no_defect (s : List Char) (h : ¬ MatchesDefect s) :
    wsFixInvalidJSON s = s := by
  cases hf : findMatch s with
  | none => simp [wsFixInvalidJSON, hf]
  | some x =>
    obtain ⟨pre, m, suf⟩ := x
    exfalso
    rcases findMatch_sound s pre m suf hf with ⟨hs, hsm, _⟩
    rcases startMatch_sound _ _ _ hsm with ⟨_, b, mid, c, hm, hb, hc, hnl⟩
    refine h ⟨pre, b, mid, c, suf, ?_, hb, hc, hnl⟩
    rw [hs, hm]
    simp

/-- Witness for C3: the frame `hello` does not match the defect
pattern, and repair leaves it unchanged. -/
theorem wsFixInvalidJSON_id_of_no_defect_witness :
    wsFixInvalidJSON "hello".data = "hello".data :=
  wsFixInvalidJSON_id_of_no_defect _
    (not_matchesDefect_of_findMatch_none _ (by decide))

/-- Claim C2: for every input frame matching the quote-wrapping defect
pattern, `wsFixInvalidJSON` removes exactly the first and the last
quotation character of the first matched span (no earlier position
starts a match) and returns the frame with every other byte identical
to the input. -/
theorem wsFixInvalidJSON_defect_repair (s : List Char) (h : MatchesDefect s) :
    ∃ pre b mid c suf,
      s = pre ++ ('\"' :: b :: (mid ++ c :: '\"' :: suf)) ∧
      (b = '[' ∨ b = '{') ∧ (c = ']' ∨ c = '}') ∧ '\n' ∉ mid ∧
      (∀ k, k < pre.length → ¬ StartsDefect (s.drop k)) ∧
      wsFixInvalidJSON s = pre ++ (b :: (mid ++ c :: suf)) := by
  cases hf : findMatch s with
  | none => exact absurd h (not_matchesDefect_of_findMatch_none s hf)
  | some x =>
    obtain ⟨pre, m, suf⟩ := x
    rcases findMatch_sound s pre m suf hf with ⟨hs, hsm, hleft⟩
    rcases startMatch_sound _ _ _ hsm with ⟨_, b, mid, c, hm, hb, hc, hnl⟩
    subst hs
    refine ⟨pre, b, mid, c, suf, ?_, hb, hc, hnl, ?_, ?_⟩
    · rw [hm]; simp
    · intro k hk hsd
      exact startMatch_of_startsDefect _ hsd (hleft k hk)
    · simp only [wsFixInvalidJSON, hf]
      have hcap : replaceFirst ['\"'] [] m = b :: (mid ++ [c, '\"']) := by
        rw [hm]; simp [replaceFirst, List.isPrefixOf]
      rw [hcap]
      have hdrop : (b :: (mid ++ [c, '\"'])).dropLast = b :: (mid ++ [c]) := by
        have he : b :: (mid ++ [c, '\"']) = (b :: (mid ++ [c])) ++ ['\"'] := by simp
        rw [he, List.dropLast_concat]
      rw [hdrop, List.append_assoc]
      have hleft2 : ∀ k, k < pre.length →
          startMatch ((pre ++ (m ++ suf)).drop k) = none := by
        intro k hk
        rw [← List.append_assoc]
        exact hleft k hk
      have hocc : ∀ k, k < pre.length →
          m.isPrefixOf ((pre ++ (m ++ suf)).drop k) = false := by
        intro k hk
        rw [Bool.eq_false_iff]
        intro hp
        refine startMatch_of_startsDefect _
          (startsDefect_of_span_isPrefixOf _ b mid c hb hc hnl ?_) (hleft2 k hk)
        rw [← hm]
        exact hp
      rw [replaceFirst_at pre m suf (b :: (mid ++ [c])) hocc]
      simp

/-- Witness for C2: the frame `\x7b"a":"[1]"\x7d` matches the defect
pattern and repair strips exactly the two quotes around `[1]`. -/
theorem wsFixInvalidJSON_defect_repair_witness :
    ∃ pre b mid c suf,
      "\x7b\"a\":\"[1]\"\x7d".data = pre ++ ('\"' :: b :: (mid ++ c :: '\"' :: suf)) ∧
      (b = '[' ∨ b = '{') ∧ (c = ']' ∨ c = '}') ∧ '\n' ∉ mid ∧
      (∀ k, k < pre.length → ¬ StartsDefect (("\x7b\"a\":\"[1]\"\x7d".data).drop k)) ∧
      wsFixInvalidJSON "\x7b\"a\":\"[1]\"\x7d".data = pre ++ (b :: (mid ++ c :: suf)) :=
  wsFixInvalidJSON_defect_repair _
    ⟨"\x7b\"a\":".data, '[', "1".data, ']', "\x7d".data, by decide,
      Or.inl rfl, Or.inl rfl, by decide⟩

/-! ## Lemmas about the reader loop -/

theorem step_cont_no_readErr (env : LoopEnv) (inp : LoopInput) (ems : List Emission)
    (h : step env inp = .cont ems) (e : List Char) : Emission.readMessageError e ∉ ems := by
  cases inp with
  | shutdown => simp [step] at h
  | readFail e2 => simp [step] at h
  | frame raw =>
    simp only [step] at h
    repeat' split at h
    all_goals cases h
    all_goals simp

/-- Claim C1: the reader loop never terminates because of an error
local to one frame — a frame failing JSON decoding after repair, a
frame with a non-success code, and a frame with an unhandled channel
each emit one error on the event stream and the loop continues —
while a `ReadMessage` failure is fatal: the loop reports it exactly
once on the outbound stream and terminates. -/
theorem wsHandleData_error_policy (env : LoopEnv) :
    (∀ e, step env (.readFail e) = .term [.readMessageError e]) ∧
    (∀ raw, env.generic (wsFixInvalidJSON raw) = none →
      step env (.frame raw) = .cont [.trafficAlert, .dataError .unmarshalFailure]) ∧
    (∀ raw g, env.generic (wsFixInvalidJSON raw) = some g → ¬ 0 < g.no →
      0 < g.code → g.code ≠ 1000 →
      step env (.frame raw) =
        .cont [.trafficAlert, .dataError (.protocolError g.code g.message)]) ∧
    (∀ raw g, env.generic (wsFixInvalidJSON raw) = some g → ¬ 0 < g.no →
      ¬ (0 < g.code ∧ g.code ≠ 1000) →
      containsSubstr ("markets".data) g.channel = false →
      containsSubstr ("ticker".data) g.channel = false →
      containsSubstr ("depth".data) g.channel = false →
      containsSubstr ("trades".data) g.channel = false →
      step env (.frame raw) = .cont [.trafficAlert, .dataError .unhandledChannel]) ∧
    (∀ (pre post : List LoopInput) (e : List Char),
      (∀ i ∈ pre, ∃ ems, step env i = .cont ems) →
      ∃ ems0, runLoop env (pre ++ .readFail e :: post) =
          (ems0 ++ [.readMessageError e], .returned) ∧
        ∀ e2, Emission.readMessageError e2 ∉ ems0) := by
  refine ⟨fun e => rfl, ?_, ?_, ?_, ?_⟩
  · intro raw h
    simp [step, h]
  · intro raw g hg hno hcode hne
    simp only [step, hg]
    rw [if_neg hno, if_pos ⟨hcode, hne⟩]
  · intro raw g hg hno hcode hmk htk hdp htr
    simp only [step, hg]
    rw [if_neg hno, if_neg hcode]
    simp [hmk, htk, hdp, htr]
  · intro pre
    induction pre with
    | nil =>
      intro post e _
      refine ⟨[], ?_, by simp⟩
      simp [runLoop, step]
    | cons i pre ih =>
      intro post e hcont
      rcases hcont i (by simp) with ⟨emsI, hi⟩
      rcases ih post e (fun j hj => hcont j (by simp [hj])) with ⟨ems1, h1, hno1⟩
      refine ⟨emsI ++ ems1, ?_, ?_⟩
      · simp only [List.cons_append, runLoop, hi, List.append_eq]
        rw [h1]
        simp
      · intro e2 hmem
        rcases List.mem_append.mp hmem with hm | hm
        · exact step_cont_no_readErr env i emsI hi e2 hm
        · exact hno1 e2 hm

/-- Witness for C1: an undecodable frame followed by a read failure —
the loop continues past the frame error and terminates at the read
failure with exactly one read error reported. -/
theorem wsHandleData_error_policy_witness :
    ∃ ems0, runLoop wEnvUndecodable ([.frame "x".data] ++ .readFail "boom".data :: []) =
        (ems0 ++ [.readMessageError "boom".data], .returned) ∧
      ∀ e2, Emission.readMessageError e2 ∉ ems0 :=
  (wsHandleData_error_policy wEnvUndecodable).2.2.2.2 [.frame "x".data] [] "boom".data
    (fun i hi => by
      simp only [List.mem_singleton] at hi
      subst hi
      exact ⟨_, rfl⟩)

/-- Claim C10: a parsed envelope with positive correlation id `No` is
delivered to the pending-request table and processing of the frame
stops there: the step emits exactly the traffic alert and the pending
delivery — no protocol error, no stream event — and continues, even
when the envelope also carries a non-success code or a channel label. -/
theorem correlated_reply_precedence (env : LoopEnv) (raw : List Char) (g : Generic)
    (hg : env.generic (wsFixInvalidJSON raw) = some g) (hno : 0 < g.no) :
    step env (.frame raw) =
      .cont [.trafficAlert, .pendingResponse g.no (wsFixInvalidJSON raw)] := by
  simp only [step, hg]
  rw [if_pos hno]

/-- Witness for C10: a frame decoding to `No = 7` with a non-success
code 2007 and a ticker channel label is still routed to the pending
table only. -/
theorem correlated_reply_precedence_witness :
    step wEnvCorrelated (.frame "f".data) =
      .cont [.trafficAlert, .pendingResponse 7 (wsFixInvalidJSON "f".data)] :=
  correlated_reply_precedence wEnvCorrelated "f".data _ rfl (by decide)

/-- Claim C5: a trades frame whose decoded batch is non-empty yields
exactly one canonical trade event whose price, amount and side are the
last batch element's, discarding the earlier elements. -/
theorem trades_batch_last_element (env : LoopEnv) (raw : List Char) (g : Generic)
    (ts : WsTrades) (t : WsTradeItem)
    (hg : env.generic (wsFixInvalidJSON raw) = some g)
    (hno : ¬ 0 < g.no) (hcode : ¬ (0 < g.code ∧ g.code ≠ 1000))
    (hmk : containsSubstr ("markets".data) g.channel = false)
    (htk : containsSubstr ("ticker".data) g.channel = false)
    (hdp : containsSubstr ("depth".data) g.channel = false)
    (htr : containsSubstr ("trades".data) g.channel = true)
    (hts : env.tradesD (wsFixInvalidJSON raw) = some ts)
    (hlast : ts.data.getLast? = some t) :
    step env (.frame raw) = .cont [.trafficAlert, .dataTrade {
      timestampSec := t.date
      currencyPair := env.newPairFromString ((splitUnderscore g.channel).headD [])
      exchange := env.name
      price := t.price
      amount := t.amount
      side := t.tradeType }] := by
  simp only [step, hg, hts, hlast]
  rw [if_neg hno, if_neg hcode]
  simp [hmk, htk, hdp, htr]

/-- Witness for C5: a batch of 3 trades produces one trade event
carrying the third trade's price 30, amount 3 and side `buy`. -/
theorem trades_batch_last_element_witness :
    step wEnvTrades (.frame "f".data) = .cont [.trafficAlert, .dataTrade {
      timestampSec := 3
      currencyPair := { delimiter := [], base := "btcusd".data, quote := [] }
      exchange := "ZB".data
      price := 30
      amount := 3
      side := "buy".data }] :=
  trades_batch_last_element wEnvTrades "f".data _ _ _ rfl (by decide) (by decide)
    (by decide) (by decide) (by decide) (by decide) rfl rfl

theorem itemsOfRows_none_of_mem (rows : List (List JValue)) (row : List JValue)
    (hmem : row ∈ rows) (hrow : itemOfRow row = none) : itemsOfRows rows = none := by
  induction rows with
  | nil => simp at hmem
  | cons r rs ih =>
    rcases List.mem_cons.mp hmem with rfl | hm
    · simp [itemsOfRows, hrow]
    · cases hr : itemOfRow r with
      | none => simp [itemsOfRows, hr]
      | some it => simp [itemsOfRows, hr, ih hm]

/-- Claim C7 (amended): a depth frame whose decoded bid or ask rows
contain a price or amount that is not a number (or a row shorter than
two entries) is not reported as a decoding error on the event stream;
the handler dies on the unchecked type assertion `.(float64)` — the
step panics right after the traffic alert. -/
theorem depth_nonnumeric_panics (env : LoopEnv) (raw : List Char) (g : Generic) (d : WsDepth)
    (hg : env.generic (wsFixInvalidJSON raw) = some g)
    (hno : ¬ 0 < g.no) (hcode : ¬ (0 < g.code ∧ g.code ≠ 1000))
    (hmk : containsSubstr ("markets".data) g.channel = false)
    (htk : containsSubstr ("ticker".data) g.channel = false)
    (hdpth : containsSubstr ("depth".data) g.channel = true)
    (hd : env.depthD (wsFixInvalidJSON raw) = some d)
    (hbad : (∃ row ∈ d.asks, itemOfRow row = none) ∨
            (∃ row ∈ d.bids, itemOfRow row = none)) :
    step env (.frame raw) = .panicked [.trafficAlert] := by
  simp only [step, hg, hd]
  rw [if_neg hno, if_neg hcode]
  rcases hbad with ⟨row, hmem, hrow⟩ | ⟨row, hmem, hrow⟩
  · simp [hmk, htk, hdpth, itemsOfRows_none_of_mem d.asks row hmem hrow]
  · cases ha : itemsOfRows d.asks with
    | none => simp [hmk, htk, hdpth, ha]
    | some as => simp [hmk, htk, hdpth, ha, itemsOfRows_none_of_mem d.bids row hmem hrow]

/-- Witness for the amended C7 at a concrete environment: the decoders
are exactly what `json.Unmarshal` produces for the frame
`\x7b"channel":"btcusd_depth","asks":[["0.1",2]]\x7d`, whose first ask
row carries the string price `"0.1"`. -/
theorem depth_nonnumeric_panics_witness :
    step wEnvBadDepth (.frame "f".data) = .panicked [.trafficAlert] :=
  depth_nonnumeric_panics wEnvBadDepth "f".data _ _ rfl (by decide) (by decide)
    (by decide) (by decide) (by decide) rfl
    (Or.inl ⟨[.jstr "0.1".data, .jnum 2], by simp, rfl⟩)

/-- Counterexample for C7 as stated: for the depth frame with a string
price, processing does not fail as a reported classification error —
the step panics with no error emission on the event stream. -/
theorem depth_string_price_no_error_event :
    step wEnvBadDepth (.frame "g".data) = .panicked [.trafficAlert] ∧
    ∀ k, Emission.dataError k ∉ (step wEnvBadDepth (.frame "g".data)).emissions := by
  refine ⟨rfl, ?_⟩
  intro k
  show Emission.dataError k ∉ [Emission.trafficAlert]
  simp

/-- Claim C4: a status code equal to the reserved success value 1000 —
or absent, decoded as the zero value 0 — is never treated as an error:
the reader loop emits no protocol error for such an envelope, and every
authenticated operation's reply handling returns the decoded response
instead of an error. -/
theorem success_code_never_error :
    (∀ (env : LoopEnv) (raw : List Char) (g : Generic),
      env.generic (wsFixInvalidJSON raw) = some g → (g.code = 1000 ∨ g.code = 0) →
      ∀ c m, Emission.dataError (.protocolError c m) ∉ (step env (.frame raw)).emissions) ∧
    (∀ (env : ZBEnv) (resp : List Char) (r : WsResponse) (gg : Generic),
      env.authEnabled = true →
      (∀ no cmd, env.send no cmd = .ok resp) →
      env.decodeResponse resp = some r →
      env.decodeGeneric resp = some gg →
      (r.code = 1000 ∨ r.code = 0) → (gg.code = 1000 ∨ gg.code = 0) →
      (∀ u p, (wsAddSubUser env u p).1 = .ok r) ∧
      (wsGetSubUserList env).1 = .ok r ∧
      (∀ pair amt fu tu, (wsDoTransferFunds env pair amt fu tu).1 = .ok r) ∧
      (∀ b1 b2 b3 b4 kn tid, (wsCreateSubUserKey env b1 b2 b3 b4 kn tid).1 = .ok r) ∧
      (∀ pair amt price tt, (wsSubmitOrder env pair amt price tt).1 = .ok r) ∧
      (∀ pair oid, (wsCancelOrder env pair oid).1 = .ok r) ∧
      (∀ pair oid, (wsGetOrder env pair oid).1 = .ok r) ∧
      (∀ pair pi tt, (wsGetOrders env pair pi tt).1 = .ok r) ∧
      (∀ pair pi ps, (wsGetOrdersIgnoreTradeType env pair pi ps).1 = .ok r) ∧
      (wsGetAccountInfoRequest env).1 = .ok r) := by
  constructor
  · intro env raw g hg hcode c m
    have hcond : ¬ (0 < g.code ∧ g.code ≠ 1000) := by
      rcases hcode with h | h <;> simp [h]
    simp only [step, hg]
    by_cases hno : 0 < g.no
    · rw [if_pos hno]; simp [StepResult.emissions]
    · rw [if_neg hno, if_neg hcond]
      repeat' split
      all_goals simp [StepResult.emissions]
  · intro env resp r gg hauth hsend hdec hgen hr hgg
    have hcond : ¬ (0 < r.code ∧ r.code ≠ 1000) := by
      rcases hr with h | h <;> simp [h]
    have hcondg : ¬ (0 < gg.code ∧ gg.code ≠ 1000) := by
      rcases hgg with h | h <;> simp [h]
    refine ⟨?_, ?_, ?_, ?_, ?_, ?_, ?_, ?_, ?_, ?_⟩
    · intro u p
      simp only [wsAddSubUser, hauth, Bool.not_true, Bool.false_eq_true, if_false, hsend,
        hgen, hdec]
      rw [if_neg hcondg]
    · simp only [wsGetSubUserList, hauth, Bool.not_true, Bool.false_eq_true, if_false,
        hsend, hdec]
      rw [if_neg hcond]
    · intro pair amt fu tu
      simp only [wsDoTransferFunds, hauth, Bool.not_true, Bool.false_eq_true, if_false,
        hsend, hdec]
      rw [if_neg hcond]
    · intro b1 b2 b3 b4 kn tid
      simp only [wsCreateSubUserKey, hauth, Bool.not_true, Bool.false_eq_true, if_false,
        hsend, hdec]
      rw [if_neg hcond]
    · intro pair amt price tt
      simp only [wsSubmitOrder, hauth, Bool.not_true, Bool.false_eq_true, if_false,
        hsend, hdec]
      rw [if_neg hcond]
    · intro pair oid
      simp only [wsCancelOrder, hauth, Bool.not_true, Bool.false_eq_true, if_false,
        hsend, hdec]
      rw [if_neg hcond]
    · intro pair oid
      simp only [wsGetOrder, hauth, Bool.not_true, Bool.false_eq_true, if_false,
        hsend, hdec]
      rw [if_neg hcond]
    · intro pair pi tt
      simp only [wsGetOrders, hauth, Bool.not_true, Bool.false_eq_true, if_false,
        hsend, hdec]
      rw [if_neg hcond]
    · intro pair pi ps
      simp only [wsGetOrdersIgnoreTradeType, hauth, Bool.not_true, Bool.false_eq_true,
        if_false, hsend, hdec]
      rw [if_neg hcond]
    · simp only [wsGetAccountInfoRequest, hauth, Bool.not_true, Bool.false_eq_true,
        if_false, hsend, hdec]
      rw [if_neg hcond]

/-- Witness for C4: a frame decoding with code 1000 produces no
protocol error in the loop, and `wsGetSubUserList` returns the decoded
reply with code 1000 instead of an error. -/
theorem success_code_never_error_witness :
    (∀ c m, Emission.dataError (.protocolError c m) ∉
      (step wEnvCode1000 (.frame "f".data)).emissions) ∧
    (wsGetSubUserList wZBEnvOn).1 = .ok { code := 1000, message := [] } :=
  ⟨success_code_never_error.1 wEnvCode1000 "f".data _ rfl (Or.inl rfl),
   (success_code_never_error.2 wZBEnvOn "r".data _ _ rfl (fun _ _ => rfl) rfl rfl
      (Or.inl rfl) (Or.inl rfl)).2.1⟩

/-- Claim C8: with authenticated API support disabled, every
authenticated websocket operation returns an error with an empty
effect trace — no message id is generated, no signature is computed,
and no network write is performed. -/
theorem auth_gate_before_io (env : ZBEnv) (hauth : env.authEnabled = false) :
    (∀ u p, wsAddSubUser env u p = (.error (.notAuthEnabled env.name), [])) ∧
    wsGetSubUserList env = (.error (.notAuthEnabled env.name), []) ∧
    (∀ pair amt fu tu,
      wsDoTransferFunds env pair amt fu tu = (.error (.notAuthEnabled env.name), [])) ∧
    (∀ b1 b2 b3 b4 kn tid,
      wsCreateSubUserKey env b1 b2 b3 b4 kn tid = (.error (.notAuthEnabled env.name), [])) ∧
    (∀ pair amt price tt,
      wsSubmitOrder env pair amt price tt = (.error (.notAuthEnabled env.name), [])) ∧
    (∀ pair oid, wsCancelOrder env pair oid = (.error (.notAuthEnabled env.name), [])) ∧
    (∀ pair oid, wsGetOrder env pair oid = (.error (.notAuthEnabled env.name), [])) ∧
    (∀ pair pi tt, wsGetOrders env pair pi tt = (.error (.notAuthEnabled env.name), [])) ∧
    (∀ pair pi ps,
      wsGetOrdersIgnoreTradeType env pair pi ps = (.error (.notAuthEnabled env.name), [])) ∧
    wsGetAccountInfoRequest env = (.error (.notAuthEnabled env.name), []) := by
  refine ⟨?_, ?_, ?_, ?_, ?_, ?_, ?_, ?_, ?_, ?_⟩
  · intro u p; simp [wsAddSubUser, hauth]
  · simp [wsGetSubUserList, hauth]
  · intro pair amt fu tu; simp [wsDoTransferFunds, hauth]
  · intro b1 b2 b3 b4 kn tid; simp [wsCreateSubUserKey, hauth]
  · intro pair amt price tt; simp [wsSubmitOrder, hauth]
  · intro pair oid; simp [wsCancelOrder, hauth]
  · intro pair oid; simp [wsGetOrder, hauth]
  · intro pair pi tt; simp [wsGetOrders, hauth]
  · intro pair pi ps; simp [wsGetOrdersIgnoreTradeType, hauth]
  · simp [wsGetAccountInfoRequest, hauth]

/-- Witness for C8 at the concrete disabled environment. -/
theorem auth_gate_before_io_witness :
    wsGetAccountInfoRequest wZBEnvOff = (.error (.notAuthEnabled "ZB".data), []) ∧
    wsAddSubUser wZBEnvOff "u".data "p".data = (.error (.notAuthEnabled "ZB".data), []) :=
  ⟨(auth_gate_before_io wZBEnvOff rfl).2.2.2.2.2.2.2.2.2,
   (auth_gate_before_io wZBEnvOff rfl).1 "u".data "p".data⟩

/-- Claim C9: signing is deterministic — for any (deterministic)
marshalling and hash collaborators, two requests with identical
serialized content signed with the same secret yield identical
hex-encoded digests. -/
theorem wsGenerateSignature_deterministic (e : SigEnv) (secret : List Char)
    (r1 r2 : CmdContent) (h : e.marshal r1 = e.marshal r2) :
    wsGenerateSignature e secret r1 = wsGenerateSignature e secret r2 := by
  simp only [wsGenerateSignature, h]

/-- Witness for C9: two distinct commands with the same serialization
receive the same signature. -/
theorem wsGenerateSignature_deterministic_witness :
    wsGenerateSignature wSigEnv "s".data
        (.authenticatedCmd
          { channel := "getSubUserList".data
            event := zWebsocketAddChannel
            accesskey := "k".data
            no := 1
            sign := [] }) =
      wsGenerateSignature wSigEnv "s".data
        (.authenticatedCmd
          { channel := "getaccountinfo".data
            event := zWebsocketAddChannel
            accesskey := "k".data
            no := 2
            sign := [] }) :=
  wsGenerateSignature_deterministic wSigEnv "s".data _ _ rfl

/-! ## Lemmas about the default subscription set -/

theorem subscribeToChannels_go_nodup :
    ∀ (l acc : List WebsocketChannelSubscription), acc.Nodup →
      (l.foldl (fun acc s => if s ∈ acc then acc else acc ++ [s]) acc).Nodup := by
  intro l
  induction l with
  | nil => intro acc h; simpa using h
  | cons s rest ih =>
    intro acc h
    simp only [List.foldl_cons]
    by_cases hs : s ∈ acc
    · rw [if_pos hs]; exact ih acc h
    · rw [if_neg hs]
      refine ih _ ?_
      simp [List.nodup_append, h, hs]

theorem subscribeToChannels_id_of_nodup :
    ∀ (l acc : List WebsocketChannelSubscription), (acc ++ l).Nodup →
      l.foldl (fun acc s => if s ∈ acc then acc else acc ++ [s]) acc = acc ++ l := by
  intro l
  induction l with
  | nil => intro acc _; simp
  | cons s rest ih =>
    intro acc h
    have hs : s ∉ acc := by
      intro hmem
      rcases List.nodup_append.mp h with ⟨_, _, hdisj⟩
      exact hdisj hmem (List.mem_cons_self s rest)
    simp only [List.foldl_cons, if_neg hs]
    rw [ih (acc ++ [s]) (by simpa using h)]
    simp

theorem subscribeToChannels_eq_self (l : List WebsocketChannelSubscription) (h : l.Nodup) :
    subscribeToChannels l = l := by
  have h2 := subscribeToChannels_id_of_nodup l [] (by simpa using h)
  simpa [subscribeToChannels] using h2

theorem subscribeToChannels_nodup (l : List WebsocketChannelSubscription) :
    (subscribeToChannels l).Nodup := by
  have h2 := subscribeToChannels_go_nodup l [] (by simp)
  simpa [subscribeToChannels] using h2

theorem getLastQ_append (l₁ l₂ : List Char) (h : l₂ ≠ []) :
    (l₁ ++ l₂).getLast? = l₂.getLast? := by
  induction l₁ with
  | nil => simp
  | cons a t ih =>
    rw [List.cons_append, ← ih]
    cases hc : t ++ l₂ with
    | nil => exact absurd (List.append_eq_nil.mp hc).2 h
    | cons b r => exact List.getLast?_cons_cons

theorem topicSubs_nodup (qs : List CurrencyPair) (h : qs.Nodup) (s : List Char) :
    (qs.map (fun q => ({ channel := pairString q ++ s, currency := q } :
      WebsocketChannelSubscription))).Nodup := by
  refine h.map ?_
  intro a b hab
  simpa using congrArg WebsocketChannelSubscription.currency hab

theorem topicSubs_disjoint (qs : List CurrencyPair) (s1 s2 : List Char)
    (h1 : s1 ≠ []) (h2 : s2 ≠ []) (hne : s1.getLast? ≠ s2.getLast?) :
    (qs.map (fun q => ({ channel := pairString q ++ s1, currency := q } :
      WebsocketChannelSubscription))).Disjoint
    (qs.map (fun q => { channel := pairString q ++ s2, currency := q })) := by
  intro x hx1 hx2
  rcases List.mem_map.mp hx1 with ⟨q1, _, rfl⟩
  rcases List.mem_map.mp hx2 with ⟨q2, _, heq⟩
  apply hne
  have hch : pairString q2 ++ s2 = pairString q1 ++ s1 :=
    congrArg WebsocketChannelSubscription.channel heq
  rw [← getLastQ_append (pairString q1) s1 h1, ← getLastQ_append (pairString q2) s2 h2, hch]

theorem market_not_mem_topicSubs (qs : List CurrencyPair) (s : List Char)
    (hne : s ≠ "markets".data) :
    ({ channel := "markets".data, currency := emptyPair } : WebsocketChannelSubscription) ∉
      qs.map (fun q => { channel := pairString q ++ s, currency := q }) := by
  intro hx
  rcases List.mem_map.mp hx with ⟨q, _, heq⟩
  have hcur : q = emptyPair := by
    simpa using congrArg WebsocketChannelSubscription.currency heq
  have hch : pairString q ++ s = "markets".data := by
    simpa using congrArg WebsocketChannelSubscription.channel heq
  rw [hcur] at hch
  simp [pairString, emptyPair] at hch
  exact hne hch

theorem generated_nodup (qs : List CurrencyPair) (h : qs.Nodup) :
    (({ channel := "markets".data, currency := emptyPair } : WebsocketChannelSubscription) ::
      subTopics.flatMap (fun suffix =>
        qs.map (fun q => { channel := pairString q ++ suffix, currency := q }))).Nodup := by
  rw [List.nodup_cons]
  constructor
  · intro hx
    simp only [subTopics, List.flatMap_cons, List.flatMap_nil, List.append_nil,
      List.mem_append] at hx
    rcases hx with hx | hx | hx
    · exact market_not_mem_topicSubs qs _ (by decide) hx
    · exact market_not_mem_topicSubs qs _ (by decide) hx
    · exact market_not_mem_topicSubs qs _ (by decide) hx
  · simp only [subTopics, List.flatMap_cons, List.flatMap_nil, List.append_nil]
    rw [List.nodup_append, List.nodup_append]
    refine ⟨topicSubs_nodup qs h _,
      ⟨topicSubs_nodup qs h _, topicSubs_nodup qs h _, ?_⟩, ?_⟩
    · exact topicSubs_disjoint qs _ _ (by decide) (by decide) (by decide)
    · rw [List.disjoint_append_right]
      exact ⟨topicSubs_disjoint qs _ _ (by decide) (by decide) (by decide),
             topicSubs_disjoint qs _ _ (by decide) (by decide) (by decide)⟩

/-- Claim C6: the default subscription set is exactly one market-wide
channel plus, per instrument, one channel per topic (ticker, depth,
trades) built from the normalized instrument string, duplicates
suppressed: for distinct normalized instruments the set is the plain
enumeration of length 1 + 3·n with no duplicates, and the two
instruments BTC/USD and ETH/USD yield exactly the 7 expected
subscriptions. -/
theorem generateDefaultSubscriptions_spec (ps : List CurrencyPair) :
    ((ps.map (fun p => CurrencyPair.lower { p with delimiter := ([] : List Char) })).Nodup →
      GenerateDefaultSubscriptions ps =
        { channel := "markets".data, currency := emptyPair } ::
          subTopics.flatMap (fun suffix =>
            (ps.map (fun p => CurrencyPair.lower { p with delimiter := ([] : List Char) })).map
              (fun q => { channel := pairString q ++ suffix, currency := q })) ∧
      (GenerateDefaultSubscriptions ps).length = 1 + 3 * ps.length ∧
      (GenerateDefaultSubscriptions ps).Nodup) ∧
    GenerateDefaultSubscriptions [btcUsd, ethUsd] =
      [{ channel := "markets".data, currency := emptyPair },
       { channel := "btcusd_ticker".data
         currency := { delimiter := [], base := "btc".data, quote := "usd".data } },
       { channel := "ethusd_ticker".data
         currency := { delimiter := [], base := "eth".data, quote := "usd".data } },
       { channel := "btcusd_depth".data
         currency := { delimiter := [], base := "btc".data, quote := "usd".data } },
       { channel := "ethusd_depth".data
         currency := { delimiter := [], base := "eth".data, quote := "usd".data } },
       { channel := "btcusd_trades".data
         currency := { delimiter := [], base := "btc".data, quote := "usd".data } },
       { channel := "ethusd_trades".data
         currency := { delimiter := [], base := "eth".data, quote := "usd".data } }] := by
  constructor
  · intro hnd
    have hrw : GenerateDefaultSubscriptions ps =
        subscribeToChannels ({ channel := "markets".data, currency := emptyPair } ::
          subTopics.flatMap (fun suffix =>
            (ps.map (fun p => CurrencyPair.lower { p with delimiter := ([] : List Char) })).map
              (fun q => { channel := pairString q ++ suffix, currency := q }))) := by
      simp [GenerateDefaultSubscriptions, List.map_map, Function.comp_def]
    have hnodup := generated_nodup _ hnd
    have heq := hrw.trans (subscribeToChannels_eq_self _ hnodup)
    refine ⟨heq, ?_, ?_⟩
    · rw [heq]
      simp only [subTopics, List.flatMap_cons, List.flatMap_nil, List.append_nil,
        List.length_cons, List.length_append, List.length_map]
      omega
    · rw [heq]; exact hnodup
  · decide

/-- Witness for C6: the two instruments BTC/USD and ETH/USD have
distinct normalized forms and yield 1 + 2·3 = 7 subscriptions with no
duplicates. -/
theorem generateDefaultSubscriptions_spec_witness :
    (GenerateDefaultSubscriptions [btcUsd, ethUsd]).length =
      1 + 3 * ([btcUsd, ethUsd] : List CurrencyPair).length ∧
    (GenerateDefaultSubscriptions [btcUsd, ethUsd]).Nodup :=
  ⟨((generateDefaultSubscriptions_spec [btcUsd, ethUsd]).1 (by decide)).2.1,
   ((generateDefaultSubscriptions_spec [btcUsd, ethUsd]).1 (by decide)).2.2⟩
